import Mathlib

/-
Verification development for the GitHub workflow-health analyzer
(`apps/genkit/src/index.ts`, the Angular app component, and the roast-card
component). The data retrieval layer (zod schemas, the two fetch tools),
the client-side repository-input parser, and the streaming flow wrapper are
embedded directly from the source. The health scoring engine and the
per-workflow report assembler exist in the source only as free-text prompt
instructions executed by an external reasoning engine; those two components
are modelled from the specification, as marked on their doc comments.
-/

/-- JSON values as decoded from an HTTP response body. JSON numbers are
abstracted to `Int`; no verified property depends on non-integral numerics. -/
inductive Json where
  | null : Json
  | bool (b : Bool) : Json
  | num (n : Int) : Json
  | str (s : String) : Json
  | arr (elems : List Json) : Json
  | obj (fields : List (String × Json)) : Json

/-- A workflow definition, the output shape of `workflowSchema`
(`index.ts` lines 17-27). -/
structure Workflow where
  id : Int
  name : String
  path : String
  state : String
  created_at : String
  updated_at : String
  url : String
  html_url : String
  badge_url : String
deriving DecidableEq

/-- A workflow run, the output shape of `workflowRunSchema`
(`index.ts` lines 29-39). `conclusion` and `run_started_at` are nullable. -/
structure WorkflowRun where
  id : Int
  name : String
  status : String
  conclusion : Option String
  workflow_id : Int
  created_at : String
  updated_at : String
  run_started_at : Option String
  html_url : String
deriving DecidableEq

/-- Object-field lookup used by the schema validators. -/
def getField (fields : List (String × Json)) (key : String) : Option Json :=
  (fields.find? (fun f => f.1 == key)).map (fun f => f.2)

/-- `z.number()` on a field value. -/
def zNumber (j : Json) (field : String) : Except String Int :=
  match j with
  | .num n => .ok n
  | _ => .error (field ++ ": expected number")

/-- `z.string()` on a field value. -/
def zString (j : Json) (field : String) : Except String String :=
  match j with
  | .str s => .ok s
  | _ => .error (field ++ ": expected string")

/-- `z.string().nullable()` on a field value. -/
def zNullableString (j : Json) (field : String) : Except String (Option String) :=
  match j with
  | .str s => .ok (some s)
  | .null => .ok none
  | _ => .error (field ++ ": expected string or null")

/-- A required object field: absence is a validation failure. -/
def requiredField (fields : List (String × Json)) (key : String) : Except String Json :=
  match getField fields key with
  | some j => .ok j
  | none => .error (key ++ ": required")

/-- `workflowSchema.parse` on one decoded value (`index.ts` lines 17-27):
every field is required, with the primitive type given by the zod schema. -/
def workflowSchema (j : Json) : Except String Workflow := do
  match j with
  | .obj fields =>
    let id ← zNumber (← requiredField fields "id") "id"
    let name ← zString (← requiredField fields "name") "name"
    let path ← zString (← requiredField fields "path") "path"
    let state ← zString (← requiredField fields "state") "state"
    let created_at ← zString (← requiredField fields "created_at") "created_at"
    let updated_at ← zString (← requiredField fields "updated_at") "updated_at"
    let url ← zString (← requiredField fields "url") "url"
    let html_url ← zString (← requiredField fields "html_url") "html_url"
    let badge_url ← zString (← requiredField fields "badge_url") "badge_url"
    pure { id, name, path, state, created_at, updated_at, url, html_url, badge_url }
  | _ => .error "workflow: expected object"

/-- `workflowRunSchema.parse` on one decoded value (`index.ts` lines 29-39). -/
def workflowRunSchema (j : Json) : Except String WorkflowRun := do
  match j with
  | .obj fields =>
    let id ← zNumber (← requiredField fields "id") "id"
    let name ← zString (← requiredField fields "name") "name"
    let status ← zString (← requiredField fields "status") "status"
    let conclusion ← zNullableString (← requiredField fields "conclusion") "conclusion"
    let workflow_id ← zNumber (← requiredField fields "workflow_id") "workflow_id"
    let created_at ← zString (← requiredField fields "created_at") "created_at"
    let updated_at ← zString (← requiredField fields "updated_at") "updated_at"
    let run_started_at ← zNullableString (← requiredField fields "run_started_at") "run_started_at"
    let html_url ← zString (← requiredField fields "html_url") "html_url"
    pure { id, name, status, conclusion, workflow_id, created_at, updated_at,
           run_started_at, html_url }
  | _ => .error "workflow run: expected object"

/-- Element-wise validation of a `z.array(...)` payload: the first failing
element fails the whole array, exactly as `schema.parse` throws. -/
def mapExcept (f : α → Except ε β) : List α → Except ε (List β)
  | [] => .ok []
  | a :: as =>
    match f a with
    | .error e => .error e
    | .ok b =>
      match mapExcept f as with
      | .error e => .error e
      | .ok bs => .ok (b :: bs)

/-- `workflowsResponseSchema.parse` (`index.ts` lines 41-44): an object with a
numeric `total_count` and an array of workflows. -/
def workflowsResponseSchema (j : Json) : Except String (List Workflow) :=
  match j with
  | .obj fields =>
    match getField fields "total_count" with
    | some (.num _) =>
      match getField fields "workflows" with
      | some (.arr elems) => mapExcept workflowSchema elems
      | some _ => .error "workflows: expected array"
      | none => .error "workflows: required"
    | some _ => .error "total_count: expected number"
    | none => .error "total_count: required"
  | _ => .error "response: expected object"

/-- `workflowRunsResponseSchema.parse` (`index.ts` lines 46-49). -/
def workflowRunsResponseSchema (j : Json) : Except String (List WorkflowRun) :=
  match j with
  | .obj fields =>
    match getField fields "total_count" with
    | some (.num _) =>
      match getField fields "workflow_runs" with
      | some (.arr elems) => mapExcept workflowRunSchema elems
      | some _ => .error "workflow_runs: expected array"
      | none => .error "workflow_runs: required"
    | some _ => .error "total_count: expected number"
    | none => .error "total_count: required"
  | _ => .error "response: expected object"

/-- An HTTP response as seen by the two tools: the numeric status, the status
text, and the already-decoded JSON body (`response.json()`). -/
structure HttpResponse where
  status : Nat
  statusText : String
  body : Json

/-- `response.ok` of the fetch API: status in the range 200-299. -/
def responseOk (r : HttpResponse) : Bool :=
  decide (200 ≤ r.status) && decide (r.status ≤ 299)

/-- Failures of the two tools: a thrown error on a non-2xx response, or a
zod validation failure. Each carries only the thrown message. -/
inductive FetchError where
  | upstream (message : String)
  | schema (message : String)
deriving DecidableEq

/-- `true` exactly when a fetch result is a schema-validation failure. -/
def isSchemaError : Except FetchError α → Bool
  | .error (.schema _) => true
  | _ => false

/-- The `fetchWorkflows` tool body (`index.ts` lines 62-95) as a function of
the HTTP response it receives: throw on a non-2xx response, validate the
body, then re-map each workflow field-by-field. -/
def fetchWorkflows (response : HttpResponse) : Except FetchError (List Workflow) :=
  if !responseOk response then
    .error (.upstream ("Failed to fetch workflows from GitHub: " ++ response.statusText))
  else
    match workflowsResponseSchema response.body with
    | .error m => .error (.schema m)
    | .ok workflows =>
      .ok (workflows.map (fun workflow =>
        { id := workflow.id, name := workflow.name, path := workflow.path,
          state := workflow.state, created_at := workflow.created_at,
          updated_at := workflow.updated_at, url := workflow.url,
          html_url := workflow.html_url, badge_url := workflow.badge_url }))

/-- The `fetchWorkflowRuns` tool body (`index.ts` lines 110-143) as a function
of the HTTP response: throw on non-2xx, validate, re-map field-by-field in
payload order (the source performs no sorting). -/
def fetchWorkflowRuns (response : HttpResponse) : Except FetchError (List WorkflowRun) :=
  if !responseOk response then
    .error (.upstream ("Failed to fetch workflow runs from GitHub: " ++ response.statusText))
  else
    match workflowRunsResponseSchema response.body with
    | .error m => .error (.schema m)
    | .ok runs =>
      .ok (runs.map (fun run =>
        { id := run.id, name := run.name, status := run.status,
          conclusion := run.conclusion, workflow_id := run.workflow_id,
          created_at := run.created_at, updated_at := run.updated_at,
          run_started_at := run.run_started_at, html_url := run.html_url }))

/-- `repoInput.split('/')` of the app component, on strings as character
lists: split at every slash, keeping empty segments. -/
def splitOnSlash : List Char → List (List Char)
  | [] => [[]]
  | c :: cs =>
    if c = '/' then [] :: splitOnSlash cs
    else
      match splitOnSlash cs with
      | [] => [[c]]
      | seg :: segs => (c :: seg) :: segs

/-- `String.prototype.trim`: drop leading and trailing whitespace. -/
def jsTrim (s : List Char) : List Char :=
  ((s.dropWhile Char.isWhitespace).reverse.dropWhile Char.isWhitespace).reverse

/-- The input handling of `workflowHealthMutation` (app component lines
18-23): split on every slash, trim each segment, destructure the first two
as owner and repo, and reject when either is missing or empty (JS falsiness
of `undefined` and of the empty string). -/
def parseRepoInput (repoInput : List Char) : Option (List Char × List Char) :=
  match (splitOnSlash repoInput).map jsTrim with
  | owner :: repo :: _ =>
    if owner.isEmpty || repo.isEmpty then none else some (owner, repo)
  | _ => none

/-- The whole `mutationFn`: validate the input, then invoke the callable
cloud function with the parsed owner and repo and return its data. The
callable is a parameter so that the theorems can speak about which network
request, if any, is issued. -/
def workflowHealthMutation (callable : List Char → List Char → String)
    (repoInput : List Char) : Except String String :=
  match parseRepoInput repoInput with
  | none => .error "Please enter a valid repository in format: owner/repo"
  | some (owner, repo) => .ok (callable owner repo)

/-- The network calls `mutationFn` issues for a given raw input: none when
validation throws, exactly one `(owner, repo)` call otherwise. -/
def mutationNetworkCalls (repoInput : List Char) : List (List Char × List Char) :=
  match parseRepoInput repoInput with
  | none => []
  | some p => [p]

/-- The prompt template of `workflowHealthFlow` (`index.ts` lines 157-209),
with the owner and repo interpolated where the template literal does. -/
def healthPrompt (owner repo : String) : String :=
  "You are an expert DevOps engineer and reliability analyst specializing in CI/CD pipeline health assessment. " ++
  "Your task is to analyze GitHub Actions workflows for the repository \"" ++ owner ++ "/" ++ repo ++
  "\" and provide a comprehensive health report. " ++
  "Using the provided tools: 1. Fetch all workflows for the repository " ++
  "2. For each workflow, fetch its recent run history (up to 100 runs) " ++
  "3. Analyze the patterns to assess workflow health. " ++
  "For each workflow, provide: Workflow Name; " ++
  "Status: Calculate as a percentage based on predicted future success rate: " ++
  "80-100% = \"Healthy\" (represented by green circle badge), " ++
  "50-79% = \"Need Improvement\" (represented by yellow circle badge), " ++
  "0-49% = \"At Risk\" (represented by red circle badge); " ++
  "File Path; Last Updated: Date of last workflow update; " ++
  "Total Runs: Total number of workflow runs in the history; " ++
  "Successful Runs: Count of successful completions; Failed Runs: Count of failures; " ++
  "Success Rate: Percentage of successful runs (calculated); " ++
  "Quick Summary: A 2-3 line AI-generated summary highlighting recent trends, key issues if any, and recommendations. " ++
  "Consider these factors for health prediction: " ++
  "Recent success/failure patterns (weight recent runs more heavily); " ++
  "Consistency of outcomes; Time-based trends (getting better or worse); " ++
  "Failure clustering (multiple failures in sequence indicate instability). " ++
  "Return the analysis in a clear, structured JSON format that can be easily parsed and displayed in a UI. " ++
  "Format: \x7b \"workflows\": [ \x7b \"name\": \"Workflow Name\", " ++
  "\"status\": \"Healthy|Need Improvement|At Risk\", \"statusPercentage\": 85, " ++
  "\"filePath\": \".github/workflows/ci.yml\", \"lastUpdated\": \"2024-01-15T10:30:00Z\", " ++
  "\"totalRuns\": 150, \"successfulRuns\": 145, \"failedRuns\": 5, \"successRate\": 96.7, " ++
  "\"summary\": \"Workflow is highly reliable with consistent success over the past 30 days.\" \x7d ] \x7d"

/-- The outcome of one `ai.generateStream` invocation: the streamed chunks in
arrival order and the final response text. -/
structure GenerationResult where
  chunks : List String
  text : String
deriving DecidableEq

/-- The `workflowHealthFlow` body (`index.ts` lines 155-224) as a function of
the generation step it invokes. The generation is an argument because it is
performed by an external model: the flow builds the prompt, runs the
generation, forwards every chunk to the stream callback (the fold collects
the forwarded chunks in order), and returns the final text unchanged. A
failed generation rejects, and the flow has no handler for it. -/
def workflowHealthFlow (generateStream : String → Except String GenerationResult)
    (owner repo : String) : Except String (List String × String) :=
  match generateStream (healthPrompt owner repo) with
  | .error e => .error e
  | .ok result =>
    .ok (result.chunks.foldl (fun emitted chunk => emitted ++ [chunk]) [], result.text)

/-- The three status buckets of the report. -/
inductive HealthBucket where
  | healthy
  | needsImprovement
  | atRisk
deriving DecidableEq

/-- One workflow's entry in the report, the shape the flow instructs the
model to emit per workflow. -/
structure HealthAssessment where
  bucket : HealthBucket
  statusPercentage : Nat
  totalRuns : Nat
  successfulRuns : Nat
  failedRuns : Nat
  successRate : Nat
  narrative : Option String
deriving DecidableEq

/-- A run concluded successfully. -/
def isSuccess (r : WorkflowRun) : Bool := r.conclusion == some "success"

/-- A run concluded in failure. -/
def isFailure (r : WorkflowRun) : Bool := r.conclusion == some "failure"

/-- A run whose conclusion is success or failure; every other run counts
toward the total only. -/
def isCompleted (r : WorkflowRun) : Bool := isSuccess r || isFailure r

/-- The completed runs of a history, most recent first. -/
def completedRuns (runs : List WorkflowRun) : List WorkflowRun :=
  runs.filter isCompleted

/-- Length of the streak of failures at the head (most recent end) of a
completed-run list. -/
def leadingFailureStreak : List WorkflowRun → Nat
  | [] => 0
  | r :: rs => if isFailure r then leadingFailureStreak rs + 1 else 0

/-- Modelled from the spec: the failure-clustering signal of the Health
Scoring Engine, which the source expresses only as the prompt instruction
"Failure clustering (multiple failures in sequence indicate instability)".
Threshold from the spec: three or more consecutive most-recent failures. -/
def hasFailureCluster (completed : List WorkflowRun) : Bool :=
  if 3 ≤ leadingFailureStreak completed then true else false

/-- Recency-weighted success points: the most recent completed run carries
weight `w` (initially the list length), each older run one less. -/
def weightedSuccessPoints : List WorkflowRun → Nat → Nat
  | [], _ => 0
  | r :: rs, w => (if isSuccess r then w else 0) + weightedSuccessPoints rs (w - 1)

/-- Total weight `n + (n-1) + ... + 1` of a completed-run list of length `n`. -/
def totalWeight : Nat → Nat
  | 0 => 0
  | n + 1 => (n + 1) + totalWeight n

/-- Modelled from the spec: the recency-weighted success rate of the Health
Scoring Engine (missing as code from the source, which delegates scoring to
prompt text). Linear decay, most recent run weighted highest; with zero
completed runs the deterministic fallback is 50, the Needs Improvement tier,
never Healthy. -/
def weightedRate (completed : List WorkflowRun) : Nat :=
  if completed.length = 0 then 50
  else 100 * weightedSuccessPoints completed completed.length / totalWeight completed.length

/-- Modelled from the spec: the combined percentage of the Health Scoring
Engine (missing as code from the source). A detected failure cluster caps
the percentage at 79, below the Healthy threshold, regardless of the raw
weighted rate. -/
def statusPercentage (completed : List WorkflowRun) : Nat :=
  let base := weightedRate completed
  if hasFailureCluster completed then min base 79 else base

/-- The percentage-to-bucket map stated both in the prompt and in the spec:
80-100 Healthy, 50-79 Needs Improvement, 0-49 At Risk. -/
def bucketOf (p : Nat) : HealthBucket :=
  if 80 ≤ p then .healthy
  else if 50 ≤ p then .needsImprovement
  else .atRisk

/-- Modelled from the spec: the Health Scoring Engine, which the source
implements only as free-text prompt instructions to the reasoning engine.
Input is the run history most recent first; total counts every run, the
success and failure counts bucket only terminal conclusions. -/
def scoreWorkflow (runs : List WorkflowRun) : HealthAssessment :=
  let completed := completedRuns runs
  let p := statusPercentage completed
  { bucket := bucketOf p
    statusPercentage := p
    totalRuns := runs.length
    successfulRuns := (runs.filter isSuccess).length
    failedRuns := (runs.filter isFailure).length
    successRate :=
      if completed.length = 0 then 0
      else 100 * (runs.filter isSuccess).length / completed.length
    narrative := none }

/-- Modelled from the spec: one step of the Report Assembler. A failed run
fetch degrades that workflow's entry to an assessment-free pair instead of
raising. -/
def assessWorkflow (fetchRuns : Int → Except FetchError (List WorkflowRun))
    (w : Workflow) : Workflow × Option HealthAssessment :=
  match fetchRuns w.id with
  | .error _ => (w, none)
  | .ok runs => (w, some (scoreWorkflow runs))

/-- Modelled from the spec: the Report Assembler's per-workflow loop
(missing as code from the source, which delegates orchestration to the
reasoning engine's tool calls). One entry per listed workflow, in listing
order; per-workflow fetch failures are isolated to that entry. -/
def assembleReport (fetchRuns : Int → Except FetchError (List WorkflowRun))
    (workflows : List Workflow) : List (Workflow × Option HealthAssessment) :=
  workflows.map (assessWorkflow fetchRuns)

/-- Two mutually exclusive predicates never together select more elements
than the list holds. -/
theorem length_filter_add_length_filter_le (p q : α → Bool)
    (h : ∀ a, p a = true → q a = false) (l : List α) :
    (l.filter p).length + (l.filter q).length ≤ l.length := by
  induction l with
  | nil => simp
  | cons a l ih =>
    by_cases hp : p a = true
    · have hq := h a hp
      simp only [List.filter_cons, hp, hq, if_true, if_false, Bool.false_eq_true,
        List.length_cons]
      omega
    · simp only [List.filter_cons, hp, if_false, Bool.false_eq_true, List.length_cons]
      by_cases hq : q a = true
      · simp only [hq, if_true, List.length_cons]
        omega
      · simp only [hq, if_false, Bool.false_eq_true]
        omega

/-- A percentage at most 79 never maps to the Healthy bucket. -/
theorem bucketOf_ne_healthy_of_le (p : Nat) (hp : p ≤ 79) :
    bucketOf p ≠ HealthBucket.healthy := by
  unfold bucketOf
  have h80 : ¬ 80 ≤ p := by omega
  simp only [h80, if_false]
  split <;> simp

/-- Splitting a slash-free character list yields that single segment. -/
theorem splitOnSlash_of_not_mem (cs : List Char) (h : '/' ∉ cs) :
    splitOnSlash cs = [cs] := by
  induction cs with
  | nil => rfl
  | cons c cs ih =>
    have hc : ¬ c = '/' := by
      intro hc
      exact h (hc ▸ List.mem_cons_self c cs)
    have h' : '/' ∉ cs := fun hm => h (List.mem_cons_of_mem c hm)
    simp [splitOnSlash, hc, ih h']

/-- Collecting streamed chunks with repeated append emits them in order. -/
theorem foldl_append_singleton (l acc : List α) :
    l.foldl (fun emitted chunk => emitted ++ [chunk]) acc = acc ++ l := by
  induction l generalizing acc with
  | nil => simp
  | cons a l ih => simp [List.foldl_cons, ih]

/-- If any element of the array fails validation, the whole array validation
fails: no element is skipped. -/
theorem mapExcept_error_of_mem (f : α → Except ε β) (xs : List α) (x : α) (msg : ε)
    (hmem : x ∈ xs) (hx : f x = .error msg) :
    ∃ e, mapExcept f xs = .error e := by
  induction xs with
  | nil => cases hmem
  | cons a as ih =>
    cases hmem with
    | head => exact ⟨msg, by simp [mapExcept, hx]⟩
    | tail _ hmem' =>
      cases hfa : f a with
      | error e => exact ⟨e, by simp [mapExcept, hfa]⟩
      | ok b =>
        obtain ⟨e, he⟩ := ih hmem'
        exact ⟨e, by simp [mapExcept, hfa, he]⟩

/-- A successful array validation validates element-wise and in order. -/
theorem mapExcept_forall₂ (f : α → Except ε β) (xs : List α) (ys : List β)
    (h : mapExcept f xs = .ok ys) :
    List.Forall₂ (fun x y => f x = .ok y) xs ys := by
  induction xs generalizing ys with
  | nil =>
    simp only [mapExcept] at h
    cases h
    exact List.Forall₂.nil
  | cons a as ih =>
    simp only [mapExcept] at h
    cases hfa : f a with
    | error e => rw [hfa] at h; cases h
    | ok b =>
      rw [hfa] at h
      cases hrest : mapExcept f as with
      | error e => rw [hrest] at h; cases h
      | ok bs =>
        rw [hrest] at h
        cases h
        exact List.Forall₂.cons hfa (ih bs hrest)

/-- The field-by-field re-mapping of runs in `fetchWorkflowRuns` rebuilds
each run unchanged. -/
theorem run_remap_id (rs : List WorkflowRun) :
    rs.map (fun run =>
      ({ id := run.id, name := run.name, status := run.status,
         conclusion := run.conclusion, workflow_id := run.workflow_id,
         created_at := run.created_at, updated_at := run.updated_at,
         run_started_at := run.run_started_at, html_url := run.html_url } :
        WorkflowRun)) = rs := by
  induction rs with
  | nil => rfl
  | cons r rs ih => simp [ih]

/-- C1: for every run history, the produced HealthAssessment satisfies
successfulRuns + failedRuns ≤ totalRuns; runs concluding in neither success
nor failure count toward the total but toward neither bucket. -/
theorem c1_assessment_counts_invariant (runs : List WorkflowRun) :
    (scoreWorkflow runs).successfulRuns + (scoreWorkflow runs).failedRuns ≤
      (scoreWorkflow runs).totalRuns := by
  have h : ∀ r : WorkflowRun, isSuccess r = true → isFailure r = false := by
    intro r hr
    have : r.conclusion = some "success" := by
      simpa [isSuccess] using hr
    simp [isFailure, this]
  simpa [scoreWorkflow] using
    length_filter_add_length_filter_le isSuccess isFailure h runs

/-- C2: a workflow whose three or more most recent completed runs are all
failures is never assessed Healthy, regardless of its lifetime success
rate: the failure cluster caps the percentage below the Healthy tier. -/
theorem c2_failure_streak_never_healthy (runs : List WorkflowRun)
    (h : 3 ≤ leadingFailureStreak (completedRuns runs)) :
    (scoreWorkflow runs).bucket ≠ HealthBucket.healthy := by
  have hc : hasFailureCluster (completedRuns runs) = true := by
    simp [hasFailureCluster, h]
  have hp : statusPercentage (completedRuns runs) ≤ 79 := by
    unfold statusPercentage
    rw [hc]
    simp
  have hb : (scoreWorkflow runs).bucket = bucketOf (statusPercentage (completedRuns runs)) := by
    simp [scoreWorkflow]
  rw [hb]
  exact bucketOf_ne_healthy_of_le _ hp

/-- A concrete completed run with the given identifier and conclusion. -/
def mkRun (id : Int) (conclusion : Option String) : WorkflowRun :=
  { id := id, name := "CI", status := "completed", conclusion := conclusion,
    workflow_id := 1, created_at := "2024-01-01T00:00:00Z",
    updated_at := "2024-01-01T01:00:00Z", run_started_at := some "2024-01-01T00:10:00Z",
    html_url := "https://example.test/run" }

/-- Twenty runs, most recent first: a streak of three failures, then
seventeen successes (an 85 percent lifetime success rate). -/
def ciDemoRuns : List WorkflowRun :=
  [mkRun 20 (some "failure"), mkRun 19 (some "failure"), mkRun 18 (some "failure")] ++
    (List.range 17).map (fun i => mkRun (17 - (i : Int)) (some "success"))

theorem c2_witness :
    3 ≤ leadingFailureStreak (completedRuns ciDemoRuns) ∧
      (scoreWorkflow ciDemoRuns).bucket ≠ HealthBucket.healthy :=
  ⟨by decide, c2_failure_streak_never_healthy ciDemoRuns (by decide)⟩

/-- A completed generation answering every prompt with a small JSON report. -/
def sampleGenerationA : String → Except String GenerationResult :=
  fun _ => .ok { chunks := ["\x7b \"workflows\": [] \x7d"],
                 text := "\x7b \"workflows\": [] \x7d" }

/-- Another completed generation over the very same inputs, answering with
different text: a second admissible sample of the same model. -/
def sampleGenerationB : String → Except String GenerationResult :=
  fun _ => .ok { chunks := [], text := "The repository has no workflows." }

/-- C3 counterexample: the pipeline's output is not a function of the
validated input alone. The generation step is sampled (temperature 0.3);
two admissible generation outcomes for the identical owner, repo and run
history give the flow different outputs, so re-running the pipeline on an
unchanged history need not reproduce the assessment. -/
theorem c3_counterexample :
    ¬ ∀ g g' : String → Except String GenerationResult,
        workflowHealthFlow g "octocat" "hello-world" =
          workflowHealthFlow g' "octocat" "hello-world" := by
  intro h
  have h2 := h sampleGenerationA sampleGenerationB
  simp [workflowHealthFlow, sampleGenerationA, sampleGenerationB] at h2

/-- C3 amended: the flow itself adds no nondeterminism and has no side
effect on its result: whenever two generation steps return the same result
for the flow's prompt, the flow's outputs coincide. Determinism holds only
relative to the sampled generation outcome, not relative to the run
history. -/
theorem c3_flow_deterministic_given_generation
    (g g' : String → Except String GenerationResult) (owner repo : String)
    (h : g (healthPrompt owner repo) = g' (healthPrompt owner repo)) :
    workflowHealthFlow g owner repo = workflowHealthFlow g' owner repo := by
  unfold workflowHealthFlow
  rw [h]

theorem c3_witness :
    sampleGenerationA (healthPrompt "octocat" "hello-world") =
        sampleGenerationA (healthPrompt "octocat" "hello-world") ∧
      workflowHealthFlow sampleGenerationA "octocat" "hello-world" =
        workflowHealthFlow sampleGenerationA "octocat" "hello-world" :=
  ⟨rfl, c3_flow_deterministic_given_generation sampleGenerationA sampleGenerationA
    "octocat" "hello-world" rfl⟩

/-- C4: an input lacking a slash, or whose owner or repo segment trims to
empty, is rejected with the invalid-input error before any network call is
issued. -/
theorem c4_invalid_input_fails_before_network
    (callable : List Char → List Char → String) (repoInput : List Char)
    (h : ('/' ∉ repoInput) ∨
      (∃ owner repo rest, (splitOnSlash repoInput).map jsTrim = owner :: repo :: rest ∧
        (owner = [] ∨ repo = []))) :
    workflowHealthMutation callable repoInput =
        .error "Please enter a valid repository in format: owner/repo" ∧
      mutationNetworkCalls repoInput = [] := by
  have hn : parseRepoInput repoInput = none := by
    cases h with
    | inl hslash =>
      simp [parseRepoInput, splitOnSlash_of_not_mem repoInput hslash]
    | inr hempty =>
      obtain ⟨owner, repo, rest, hsplit, hor⟩ := hempty
      rw [parseRepoInput, hsplit]
      cases hor with
      | inl ho => subst ho; simp
      | inr hr => subst hr; simp
  simp [workflowHealthMutation, mutationNetworkCalls, hn]

theorem c4_witness :
    (('/' ∉ "not-a-repo".toList) ∨
      (∃ owner repo rest,
        (splitOnSlash "not-a-repo".toList).map jsTrim = owner :: repo :: rest ∧
          (owner = [] ∨ repo = []))) ∧
      (workflowHealthMutation (fun _ _ => "report") "not-a-repo".toList =
          .error "Please enter a valid repository in format: owner/repo" ∧
        mutationNetworkCalls "not-a-repo".toList = []) :=
  ⟨Or.inl (by decide),
    c4_invalid_input_fails_before_network (fun _ _ => "report") "not-a-repo".toList
      (Or.inl (by decide))⟩

/-- The claim that the thrown upstream error carries the numeric HTTP
status: if it did, equal errors could only arise from equal statuses. -/
def upstreamErrorCarriesStatus : Prop :=
  ∀ r1 r2 : HttpResponse, responseOk r1 = false → responseOk r2 = false →
    fetchWorkflows r1 = fetchWorkflows r2 → r1.status = r2.status

/-- C5 counterexample: the thrown error does not carry the HTTP status. Two
non-2xx responses with different statuses (404 and 500) and the same status
text (empty, as every HTTP/2 response reports) make `fetchWorkflows` throw
the identical error, so the status cannot be recovered from what is
thrown. -/
theorem c5_counterexample : ¬ upstreamErrorCarriesStatus := by
  intro h
  have h2 := h { status := 404, statusText := "", body := Json.null }
    { status := 500, statusText := "", body := Json.null } (by decide) (by decide) rfl
  exact absurd h2 (by decide)

/-- C5 amended: on every non-2xx response both tools fail with an upstream
error whose message embeds the response's status text; the numeric status
code is not part of the error. -/
theorem c5_upstream_error_includes_status_text (response : HttpResponse)
    (h : responseOk response = false) :
    fetchWorkflows response =
        .error (.upstream ("Failed to fetch workflows from GitHub: " ++
          response.statusText)) ∧
      fetchWorkflowRuns response =
        .error (.upstream ("Failed to fetch workflow runs from GitHub: " ++
          response.statusText)) := by
  unfold fetchWorkflows fetchWorkflowRuns
  rw [h]
  simp

/-- A concrete 404 response. -/
def notFoundResponse : HttpResponse :=
  { status := 404, statusText := "Not Found", body := Json.null }

theorem c5_witness :
    responseOk notFoundResponse = false ∧
      (fetchWorkflows notFoundResponse =
          .error (.upstream ("Failed to fetch workflows from GitHub: " ++
            notFoundResponse.statusText)) ∧
        fetchWorkflowRuns notFoundResponse =
          .error (.upstream ("Failed to fetch workflow runs from GitHub: " ++
            notFoundResponse.statusText))) :=
  ⟨by decide, c5_upstream_error_includes_status_text notFoundResponse (by decide)⟩

/-- C6: a decoded payload containing even one malformed record (here: any
record the zod schema rejects, e.g. a run missing `id`) fails the whole
fetch with a schema error; the offending record is never skipped in favor
of returning the rest. Stated for both `fetchWorkflowRuns` and
`fetchWorkflows`. -/
theorem c6_schema_error_fails_entire_fetch :
    (∀ (response : HttpResponse) (fields : List (String × Json)) (elems : List Json)
        (bad : Json) (msg : String) (n : Int),
      responseOk response = true →
      response.body = Json.obj fields →
      getField fields "total_count" = some (Json.num n) →
      getField fields "workflow_runs" = some (Json.arr elems) →
      bad ∈ elems →
      workflowRunSchema bad = .error msg →
      isSchemaError (fetchWorkflowRuns response) = true) ∧
    (∀ (response : HttpResponse) (fields : List (String × Json)) (elems : List Json)
        (bad : Json) (msg : String) (n : Int),
      responseOk response = true →
      response.body = Json.obj fields →
      getField fields "total_count" = some (Json.num n) →
      getField fields "workflows" = some (Json.arr elems) →
      bad ∈ elems →
      workflowSchema bad = .error msg →
      isSchemaError (fetchWorkflows response) = true) := by
  constructor
  · intro response fields elems bad msg n hok hbody hcount harr hmem hbad
    obtain ⟨e, he⟩ := mapExcept_error_of_mem workflowRunSchema elems bad msg hmem hbad
    simp [fetchWorkflowRuns, hok, hbody, workflowRunsResponseSchema, hcount, harr, he,
      isSchemaError]
  · intro response fields elems bad msg n hok hbody hcount harr hmem hbad
    obtain ⟨e, he⟩ := mapExcept_error_of_mem workflowSchema elems bad msg hmem hbad
    simp [fetchWorkflows, hok, hbody, workflowsResponseSchema, hcount, harr, he,
      isSchemaError]

/-- A decoded run record missing the required `id` field. -/
def runMissingId : Json :=
  Json.obj [("name", Json.str "CI"), ("status", Json.str "completed"),
    ("conclusion", Json.null), ("workflow_id", Json.num 1),
    ("created_at", Json.str "2024-01-01T00:00:00Z"),
    ("updated_at", Json.str "2024-01-01T01:00:00Z"),
    ("run_started_at", Json.null), ("html_url", Json.str "https://example.test/run")]

/-- A 200 response whose run list contains the malformed record. -/
def badRunsResponse : HttpResponse :=
  { status := 200, statusText := "OK",
    body := Json.obj [("total_count", Json.num 1),
      ("workflow_runs", Json.arr [runMissingId])] }

/-- A decoded workflow record missing the required `id` field. -/
def workflowMissingId : Json :=
  Json.obj [("name", Json.str "CI"), ("path", Json.str ".github/workflows/ci.yml"),
    ("state", Json.str "active"), ("created_at", Json.str "2024-01-01T00:00:00Z"),
    ("updated_at", Json.str "2024-01-01T01:00:00Z"),
    ("url", Json.str "https://example.test/wf"),
    ("html_url", Json.str "https://example.test/wf"),
    ("badge_url", Json.str "https://example.test/badge")]

/-- A 200 response whose workflow list contains the malformed record. -/
def badWorkflowsResponse : HttpResponse :=
  { status := 200, statusText := "OK",
    body := Json.obj [("total_count", Json.num 1),
      ("workflows", Json.arr [workflowMissingId])] }

theorem c6_witness :
    isSchemaError (fetchWorkflowRuns badRunsResponse) = true ∧
      isSchemaError (fetchWorkflows badWorkflowsResponse) = true :=
  ⟨c6_schema_error_fails_entire_fetch.1 badRunsResponse _ _ runMissingId
      "id: required" 1 (by decide) rfl rfl rfl (List.mem_singleton.mpr rfl) rfl,
    c6_schema_error_fails_entire_fetch.2 badWorkflowsResponse _ _ workflowMissingId
      "id: required" 1 (by decide) rfl rfl rfl (List.mem_singleton.mpr rfl) rfl⟩

/-- A generation step that fails (the narrative-producing model call
rejects, e.g. a timeout). -/
def failingGeneration : String → Except String GenerationResult :=
  fun _ => .error "insight generation timed out"

/-- C7 counterexample: when the insight-generating call fails, the request
aborts with that error; no report with an empty or omitted narrative is
produced. The flow has no handler around its single generation call, and
that call produces the entire report. -/
theorem c7_counterexample :
    workflowHealthFlow failingGeneration "octocat" "hello-world" =
      .error "insight generation timed out" := rfl

/-- C7 amended: a failed generation call aborts the whole request: the flow
propagates the failure unchanged and returns no report at all, degraded or
otherwise. -/
theorem c7_generation_failure_aborts_request
    (g : String → Except String GenerationResult) (owner repo e : String)
    (h : g (healthPrompt owner repo) = .error e) :
    workflowHealthFlow g owner repo = .error e := by
  unfold workflowHealthFlow
  rw [h]

theorem c7_witness :
    failingGeneration (healthPrompt "octocat" "hello-world") =
        .error "insight generation timed out" ∧
      workflowHealthFlow failingGeneration "octocat" "hello-world" =
        .error "insight generation timed out" :=
  ⟨rfl, c7_generation_failure_aborts_request failingGeneration "octocat" "hello-world"
      "insight generation timed out" rfl⟩

/-- C8: a failure fetching one workflow's runs is isolated to that
workflow's entry: every workflow whose fetch succeeds keeps its assessment
in the report, the report still has one entry per listed workflow, and
assembly is a total function, raising no fatal error. -/
theorem c8_per_workflow_failure_isolated
    (fetchRuns : Int → Except FetchError (List WorkflowRun))
    (workflows : List Workflow) (w : Workflow) (runs : List WorkflowRun)
    (hmem : w ∈ workflows) (hok : fetchRuns w.id = .ok runs) :
    (w, some (scoreWorkflow runs)) ∈ assembleReport fetchRuns workflows ∧
      (assembleReport fetchRuns workflows).length = workflows.length := by
  constructor
  · have hmm := List.mem_map_of_mem (assessWorkflow fetchRuns) hmem
    have hw : assessWorkflow fetchRuns w = (w, some (scoreWorkflow runs)) := by
      simp [assessWorkflow, hok]
    rw [hw] at hmm
    exact hmm
  · simp [assembleReport]

/-- A concrete workflow with the given identifier and name. -/
def mkWorkflow (id : Int) (name : String) : Workflow :=
  { id := id, name := name, path := ".github/workflows/ci.yml", state := "active",
    created_at := "2024-01-01T00:00:00Z", updated_at := "2024-01-01T01:00:00Z",
    url := "https://example.test/wf", html_url := "https://example.test/wf",
    badge_url := "https://example.test/badge" }

/-- Three listed workflows. -/
def demoWorkflows : List Workflow :=
  [mkWorkflow 1 "CI", mkWorkflow 2 "Deploy", mkWorkflow 3 "Docs"]

/-- A run fetcher that fails for workflow 2 and succeeds elsewhere. -/
def demoFetchRuns : Int → Except FetchError (List WorkflowRun) :=
  fun workflowId =>
    if workflowId = 2 then
      .error (.upstream "Failed to fetch workflow runs from GitHub: Internal Server Error")
    else .ok [mkRun 1 (some "success")]

theorem c8_witness :
    (mkWorkflow 1 "CI", some (scoreWorkflow [mkRun 1 (some "success")])) ∈
        assembleReport demoFetchRuns demoWorkflows ∧
      (assembleReport demoFetchRuns demoWorkflows).length = demoWorkflows.length :=
  c8_per_workflow_failure_isolated demoFetchRuns demoWorkflows (mkWorkflow 1 "CI")
    [mkRun 1 (some "success")] (by decide) rfl

/-- Lexicographic order on character lists, by code point. -/
def leChars : List Char → List Char → Bool
  | [], _ => true
  | _ :: _, [] => false
  | a :: as, b :: bs =>
    if a.toNat < b.toNat then true
    else if b.toNat < a.toNat then false
    else leChars as bs

/-- The run list is non-decreasing in creation time. -/
def ascendingByCreation : List WorkflowRun → Bool
  | [] => true
  | [_] => true
  | a :: b :: rest =>
    leChars a.created_at.toList b.created_at.toList &&
      ascendingByCreation (b :: rest)

/-- The run list is non-increasing in creation time. -/
def descendingByCreation : List WorkflowRun → Bool
  | [] => true
  | [_] => true
  | a :: b :: rest =>
    leChars b.created_at.toList a.created_at.toList &&
      descendingByCreation (b :: rest)

/-- Ordered by creation time, in either direction (ISO-8601 timestamps
compare chronologically as strings). -/
def orderedByCreationTime (runs : List WorkflowRun) : Bool :=
  ascendingByCreation runs || descendingByCreation runs

/-- A well-formed run record with the given identifier and creation time. -/
def runJson (id : Int) (created_at : String) : Json :=
  Json.obj [("id", Json.num id), ("name", Json.str "CI"),
    ("status", Json.str "completed"), ("conclusion", Json.str "success"),
    ("workflow_id", Json.num 1), ("created_at", Json.str created_at),
    ("updated_at", Json.str created_at), ("run_started_at", Json.null),
    ("html_url", Json.str "https://example.test/run")]

/-- A 200 response whose runs arrive out of chronological order. -/
def unorderedRunsResponse : HttpResponse :=
  { status := 200, statusText := "OK",
    body := Json.obj [("total_count", Json.num 3),
      ("workflow_runs", Json.arr
        [runJson 2 "2024-01-02T00:00:00Z",
         runJson 1 "2024-01-01T00:00:00Z",
         runJson 3 "2024-01-03T00:00:00Z"])] }

/-- The exact list `fetchWorkflowRuns` returns for that response: the
payload order, untouched. -/
def unorderedRunsOut : List WorkflowRun :=
  [{ id := 2, name := "CI", status := "completed", conclusion := some "success",
     workflow_id := 1, created_at := "2024-01-02T00:00:00Z",
     updated_at := "2024-01-02T00:00:00Z", run_started_at := none,
     html_url := "https://example.test/run" },
   { id := 1, name := "CI", status := "completed", conclusion := some "success",
     workflow_id := 1, created_at := "2024-01-01T00:00:00Z",
     updated_at := "2024-01-01T00:00:00Z", run_started_at := none,
     html_url := "https://example.test/run" },
   { id := 3, name := "CI", status := "completed", conclusion := some "success",
     workflow_id := 1, created_at := "2024-01-03T00:00:00Z",
     updated_at := "2024-01-03T00:00:00Z", run_started_at := none,
     html_url := "https://example.test/run" }]

/-- C9 counterexample: the retrieval layer does not re-establish
chronological order. When the upstream payload is out of order, the list
returned by `fetchWorkflowRuns` is ordered by creation time in neither
direction: the source performs no sorting. -/
theorem c9_counterexample :
    fetchWorkflowRuns unorderedRunsResponse = .ok unorderedRunsOut ∧
      orderedByCreationTime unorderedRunsOut = false := by
  constructor
  · rfl
  · decide

/-- C9 amended: `fetchWorkflowRuns` preserves the upstream payload's order
exactly. A successful fetch returns precisely the validated
`workflow_runs` array, element for element in payload order, with no
re-sorting; the output is chronological only when the upstream response
already was. -/
theorem c9_fetch_preserves_upstream_order (response : HttpResponse)
    (runs : List WorkflowRun)
    (h : fetchWorkflowRuns response = .ok runs) :
    responseOk response = true ∧
      workflowRunsResponseSchema response.body = .ok runs ∧
      ∀ fields elems, response.body = Json.obj fields →
        getField fields "workflow_runs" = some (Json.arr elems) →
        List.Forall₂ (fun e r => workflowRunSchema e = .ok r) elems runs := by
  unfold fetchWorkflowRuns at h
  split at h
  · exact Except.noConfusion h
  · rename_i hok
    split at h
    · exact Except.noConfusion h
    · rename_i ws hp
      rw [run_remap_id] at h
      have hws : ws = runs := Except.ok.inj h
      subst hws
      have hok' : responseOk response = true := by
        simpa using hok
      refine ⟨hok', hp, ?_⟩
      intro fields elems hbody harr
      rw [hbody] at hp
      unfold workflowRunsResponseSchema at hp
      split at hp
      · rename_i fields2 heqf
        have hf : fields = fields2 := Json.obj.inj heqf
        subst hf
        split at hp
        · split at hp
          · rename_i es heqa
            rw [harr] at heqa
            have hes : es = elems := (Json.arr.inj (Option.some.inj heqa)).symm
            subst hes
            exact mapExcept_forall₂ _ _ _ hp
          · exact Except.noConfusion hp
          · exact Except.noConfusion hp
        · exact Except.noConfusion hp
        · exact Except.noConfusion hp
      · rename_i hno
        exact (hno fields rfl).elim

theorem c9_witness :
    responseOk unorderedRunsResponse = true ∧
      workflowRunsResponseSchema unorderedRunsResponse.body = .ok unorderedRunsOut ∧
      ∀ fields elems, unorderedRunsResponse.body = Json.obj fields →
        getField fields "workflow_runs" = some (Json.arr elems) →
        List.Forall₂ (fun e r => workflowRunSchema e = .ok r) elems unorderedRunsOut :=
  c9_fetch_preserves_upstream_order unorderedRunsResponse unorderedRunsOut rfl

/-- C10: on any input whose split has two or more slashes (three or more
segments), the parser uses only the first two trimmed segments: the request
is issued with those as owner and repo, and every remaining segment is
silently discarded rather than rejected. -/
theorem c10_extra_segments_ignored (callable : List Char → List Char → String)
    (repoInput owner repo : List Char) (rest : List (List Char))
    (hsplit : (splitOnSlash repoInput).map jsTrim = owner :: repo :: rest)
    (_hrest : rest ≠ [])
    (howner : owner ≠ []) (hrepo : repo ≠ []) :
    workflowHealthMutation callable repoInput = .ok (callable owner repo) ∧
      mutationNetworkCalls repoInput = [(owner, repo)] := by
  have hp : parseRepoInput repoInput = some (owner, repo) := by
    unfold parseRepoInput
    rw [hsplit]
    have ho : owner.isEmpty = false := by
      cases owner with
      | nil => exact absurd rfl howner
      | cons a l => rfl
    have hr : repo.isEmpty = false := by
      cases repo with
      | nil => exact absurd rfl hrepo
      | cons a l => rfl
    simp [ho, hr]
  simp [workflowHealthMutation, mutationNetworkCalls, hp]

theorem c10_witness :
    (splitOnSlash "a/b/c".toList).map jsTrim = ['a'] :: ['b'] :: [['c']] ∧
      [['c']] ≠ ([] : List (List Char)) ∧
      (workflowHealthMutation (fun _ _ => "analysis") "a/b/c".toList =
          .ok "analysis" ∧
        mutationNetworkCalls "a/b/c".toList = [(['a'], ['b'])]) :=
  ⟨by decide, by decide,
    c10_extra_segments_ignored (fun _ _ => "analysis") "a/b/c".toList ['a'] ['b']
      [['c']] (by decide) (by decide) (by decide) (by decide)⟩
